import Mathlib

/-!
Verification of the pythx CLI (`pythx/cli/main.py`) against its specification.

The development shallowly embeds the relevant Python functions:

* `get_source_location_by_offset` — the offset-to-position resolver.  A file
  is modelled by its character content (`List Char`); Python's line iteration
  (`for line in f`) is modelled by `pyLines`, which splits the content into
  lines keeping each terminating newline, and yields no line for empty
  content.  The Python function either returns a pair (modelled `some`) or
  logs an error and calls `sys.exit(1)` (modelled `none`).
* `parse_config` — credential-file validation over an already-parsed JSON
  value (`json.load`'s result), returning the config or a fatal CLI exit.
* `ps_core` — the analysis-listing path shared by `ps` and `top`.
* the `report` command's aggregation loop over issues and locations.
-/

namespace Pythx

/-- Python's line iteration over file content: split on newline characters,
each line keeping its terminating `'\n'`; a final segment without a
terminator is still a line; empty content yields no lines. -/
def pyLines : List Char → List (List Char)
  | [] => []
  | c :: rest =>
    if c = '\n' then ['\n'] :: pyLines rest
    else
      match pyLines rest with
      | [] => [[c]]
      | l :: ls => (c :: l) :: ls

/-- The scanning loop of `get_source_location_by_offset`: `line_ctr` and
`overall` are the loop-carried counters, `offset` the target.  Each
iteration increments the line counter, adds the line's length to `overall`
and returns `(line_ctr, overall - offset)` as soon as `overall >= offset`.
Falling off the loop is the `sys.exit(1)` path, modelled by `none`. -/
def resolveGo (offset : Nat) : List (List Char) → Nat → Nat → Option (Nat × Nat)
  | [], _, _ => none
  | line :: rest, line_ctr, overall =>
    if offset ≤ overall + line.length then
      some (line_ctr + 1, overall + line.length - offset)
    else
      resolveGo offset rest (line_ctr + 1) (overall + line.length)

/-- `get_source_location_by_offset(filename, offset)` from
`pythx/cli/main.py`, with the file given by its content.  `some (line, col)`
models the `return line_ctr, overall - offset`; `none` models the logged
error followed by `sys.exit(1)`. -/
def get_source_location_by_offset (content : List Char) (offset : Nat) :
    Option (Nat × Nat) :=
  resolveGo offset (pyLines content) 0 0

/-- Cumulative byte count of the first `j` lines. -/
def cumBytes (lines : List (List Char)) (j : Nat) : Nat :=
  ((lines.take j).map List.length).sum

theorem cumBytes_zero (lines : List (List Char)) : cumBytes lines 0 = 0 := rfl

theorem cumBytes_cons (l : List Char) (rest : List (List Char)) (j : Nat) :
    cumBytes (l :: rest) (j + 1) = l.length + cumBytes rest j := by
  simp [cumBytes, List.take_succ_cons]

theorem pyLines_ne_nil (c : Char) (rest : List Char) :
    pyLines (c :: rest) ≠ [] := by
  rw [pyLines]
  by_cases h : c = '\n'
  · simp [h]
  · simp only [if_neg h]
    cases pyLines rest <;> simp

/-- Splitting into lines preserves the total byte count. -/
theorem pyLines_length_sum (s : List Char) :
    ((pyLines s).map List.length).sum = s.length := by
  induction s with
  | nil => rfl
  | cons c rest ih =>
    rw [pyLines]
    by_cases h : c = '\n'
    · simp only [if_pos h, List.map_cons, List.sum_cons, List.length_cons,
        List.length_nil]
      omega
    · simp only [if_neg h]
      cases hrest : pyLines rest with
      | nil =>
        cases rest with
        | nil => rfl
        | cons d ds => exact absurd hrest (pyLines_ne_nil d ds)
      | cons l ls =>
        rw [hrest] at ih
        simp only [List.map_cons, List.sum_cons, List.length_cons] at ih ⊢
        omega

theorem cumBytes_pyLines (s : List Char) :
    cumBytes (pyLines s) (pyLines s).length = s.length := by
  rw [cumBytes, List.take_length, pyLines_length_sum]

end Pythx

namespace Pythx

/-- Characterisation of a successful scan: starting from counters
`line_ctr`/`overall` with `overall ≤ offset`, a `some (L, C)` result
identifies the first line at which the cumulative count reaches `offset`. -/
theorem resolveGo_some_spec (offset : Nat) (lines : List (List Char))
    (line_ctr overall L C : Nat) (hov : overall ≤ offset)
    (h : resolveGo offset lines line_ctr overall = some (L, C)) :
    ∃ i, 1 ≤ i ∧ i ≤ lines.length ∧ L = line_ctr + i ∧
      offset ≤ overall + cumBytes lines i ∧
      (∀ j, 1 ≤ j → j < i → overall + cumBytes lines j < offset) ∧
      overall + cumBytes lines i = offset + C := by
  induction lines generalizing line_ctr overall with
  | nil => simp [resolveGo] at h
  | cons l rest ih =>
    rw [resolveGo] at h
    by_cases hc : offset ≤ overall + l.length
    · rw [if_pos hc] at h
      simp only [Option.some.injEq, Prod.mk.injEq] at h
      obtain ⟨hL, hC⟩ := h
      refine ⟨1, le_refl 1, by simp, by omega, ?_, ?_, ?_⟩
      · simpa [cumBytes_cons, cumBytes_zero] using hc
      · intro j hj1 hj; omega
      · rw [cumBytes_cons, cumBytes_zero]; omega
    · rw [if_neg hc] at h
      have hov' : overall + l.length ≤ offset := by omega
      obtain ⟨i, hi1, hile, hL, hreach, hmin, hsum⟩ :=
        ih (line_ctr + 1) (overall + l.length) hov' h
      refine ⟨i + 1, by omega, by simpa using Nat.add_le_add_right hile 1, by omega,
        ?_, ?_, ?_⟩
      · rw [cumBytes_cons]; omega
      · intro j hj1 hj
        match j, hj1 with
        | 1, _ =>
          rw [cumBytes_cons, cumBytes_zero]
          omega
        | j' + 2, _ =>
          have := hmin (j' + 1) (by omega) (by omega)
          rw [cumBytes_cons]
          omega
      · rw [cumBytes_cons]; omega

/-- If the target offset is within reach of the remaining lines and at least
one line remains, the scan succeeds. -/
theorem resolveGo_isSome (offset : Nat) (lines : List (List Char))
    (line_ctr overall : Nat) (hne : lines ≠ [])
    (hle : offset ≤ overall + cumBytes lines lines.length) :
    (resolveGo offset lines line_ctr overall).isSome := by
  induction lines generalizing line_ctr overall with
  | nil => exact absurd rfl hne
  | cons l rest ih =>
    rw [resolveGo]
    by_cases hc : offset ≤ overall + l.length
    · rw [if_pos hc]; rfl
    · rw [if_neg hc]
      have hrest : rest ≠ [] := by
        intro hr
        subst hr
        rw [List.length_cons, List.length_nil, cumBytes_cons, cumBytes_zero] at hle
        omega
      apply ih _ _ hrest
      rw [List.length_cons, cumBytes_cons] at hle
      omega

/-- Scanning past all lines without the cumulative count reaching the offset
yields the failure path. -/
theorem resolveGo_none (offset : Nat) (lines : List (List Char))
    (line_ctr overall : Nat)
    (hgt : overall + cumBytes lines lines.length < offset) :
    resolveGo offset lines line_ctr overall = none := by
  induction lines generalizing line_ctr overall with
  | nil => rfl
  | cons l rest ih =>
    rw [List.length_cons, cumBytes_cons] at hgt
    rw [resolveGo, if_neg (by omega)]
    exact ih _ _ (by omega)

end Pythx

namespace Pythx

/-- Byte length of the (1-based) `L`-th line of a file's content. -/
def lineLength (content : List Char) (L : Nat) : Nat :=
  ((pyLines content).getD (L - 1) []).length

theorem pyLines_ne_nil_of_ne_nil (s : List Char) (h : s ≠ []) :
    pyLines s ≠ [] := by
  cases s with
  | nil => exact absurd rfl h
  | cons c rest => exact pyLines_ne_nil c rest

theorem cumBytes_succ (lines : List (List Char)) (i : Nat)
    (h : i < lines.length) :
    cumBytes lines (i + 1) = cumBytes lines i + (lines.getD i []).length := by
  induction lines generalizing i with
  | nil => simp at h
  | cons l rest ih =>
    cases i with
    | zero => simp [cumBytes_cons, cumBytes_zero, List.getD_cons_zero]
    | succ i' =>
      rw [cumBytes_cons, cumBytes_cons, List.getD_cons_succ,
        ih i' (by simpa using Nat.lt_of_succ_lt_succ h)]
      omega

end Pythx

namespace Pythx

/-- C1 (counterexample): the claim quantifies over every file, but for the
empty file the offset `0` satisfies `0 ≤ 0 = totalBytes`, yet the resolver
takes the error path (`sys.exit(1)`) instead of returning a position. -/
theorem claim_C1_counterexample :
    (0 : Nat) ≤ ([] : List Char).length ∧
    get_source_location_by_offset [] 0 = none :=
  ⟨Nat.le_refl 0, rfl⟩

/-- C1 (amended): for every NON-EMPTY file `F` and every offset
`0 ≤ O ≤ totalBytes(F)`, the resolver returns `(line, col)` with
`cumBytes(lines 1..line-1) + (lineLength(line) - col) = O`, and `line` is
the smallest line index whose cumulative byte count is `≥ O`. -/
theorem claim_C1_amended (content : List Char) (offset : Nat)
    (hne : content ≠ []) (hoff : offset ≤ content.length) :
    ∃ L C, get_source_location_by_offset content offset = some (L, C) ∧
      C ≤ lineLength content L ∧
      cumBytes (pyLines content) (L - 1) + (lineLength content L - C) = offset ∧
      1 ≤ L ∧ offset ≤ cumBytes (pyLines content) L ∧
      ∀ j, 1 ≤ j → offset ≤ cumBytes (pyLines content) j → L ≤ j := by
  have hlines : pyLines content ≠ [] := pyLines_ne_nil_of_ne_nil content hne
  have hle : offset ≤ 0 + cumBytes (pyLines content) (pyLines content).length := by
    rw [Nat.zero_add, cumBytes_pyLines]; exact hoff
  have hsome := resolveGo_isSome offset (pyLines content) 0 0 hlines hle
  obtain ⟨⟨L, C⟩, hLC⟩ := Option.isSome_iff_exists.mp hsome
  obtain ⟨i, hi1, hile, hLi, hreach, hmin, hsum⟩ :=
    resolveGo_some_spec offset (pyLines content) 0 0 L C (Nat.zero_le _) hLC
  rw [Nat.zero_add] at hLi hreach hsum
  simp only [Nat.zero_add] at hmin
  subst hLi
  have hprev : cumBytes (pyLines content) (L - 1) < offset ∨
      (L = 1 ∧ cumBytes (pyLines content) 0 = 0) := by
    rcases Nat.lt_or_ge 1 L with hgt | hle1
    · exact Or.inl (hmin (L - 1) (by omega) (by omega))
    · have : L = 1 := by omega
      exact Or.inr ⟨this, cumBytes_zero _⟩
  have hstep : cumBytes (pyLines content) L =
      cumBytes (pyLines content) (L - 1) + lineLength content L := by
    have h1 : L - 1 < (pyLines content).length := by omega
    have := cumBytes_succ (pyLines content) (L - 1) h1
    rw [show L - 1 + 1 = L by omega] at this
    rw [this]; rfl
  have hCle : C ≤ lineLength content L := by
    rcases hprev with hlt | ⟨hi, h0⟩
    · omega
    · subst hi; rw [h0] at hstep; omega
  refine ⟨L, C, hLC, hCle, ?_, hi1, hreach, ?_⟩
  · rcases hprev with hlt | ⟨hi, h0⟩
    · omega
    · subst hi
      simp only [Nat.sub_self] at *
      omega
  · intro j hj1 hjre
    by_contra hcon
    have := hmin j hj1 (by omega)
    omega

/-- C1 (witness): the amended theorem applied to the file `"abc\ndef\n"`
at offset `5`. -/
theorem claim_C1_witness :
    ∃ L C,
      get_source_location_by_offset ("abc\ndef\n".toList) 5 = some (L, C) ∧
      C ≤ lineLength ("abc\ndef\n".toList) L ∧
      cumBytes (pyLines ("abc\ndef\n".toList)) (L - 1) +
        (lineLength ("abc\ndef\n".toList) L - C) = 5 ∧
      1 ≤ L ∧ 5 ≤ cumBytes (pyLines ("abc\ndef\n".toList)) L ∧
      ∀ j, 1 ≤ j → 5 ≤ cumBytes (pyLines ("abc\ndef\n".toList)) j → L ≤ j :=
  claim_C1_amended ("abc\ndef\n".toList) 5 (by decide) (by decide)

/-- C2: on the file `"abc\ndef\n"` (two lines of 4 bytes), the resolver
returns `(1, 0)` at offset 4, `(2, 3)` at offset 5, `(2, 0)` at offset 8,
and fails at offset 9. -/
theorem claim_C2 :
    get_source_location_by_offset ("abc\ndef\n".toList) 4 = some (1, 0) ∧
    get_source_location_by_offset ("abc\ndef\n".toList) 5 = some (2, 3) ∧
    get_source_location_by_offset ("abc\ndef\n".toList) 8 = some (2, 0) ∧
    get_source_location_by_offset ("abc\ndef\n".toList) 9 = none := by
  refine ⟨by decide, by decide, by decide, by decide⟩

/-- C3 (counterexample): the file `"abc\ndef\n"` has a non-empty first line
(4 bytes), yet the resolver at offset 0 returns `(1, 4)` — column equal to
the first line's length — not `(1, 0)` as the claim states. -/
theorem claim_C3_counterexample :
    0 < lineLength ("abc\ndef\n".toList) 1 ∧
    get_source_location_by_offset ("abc\ndef\n".toList) 0 = some (1, 4) ∧
    get_source_location_by_offset ("abc\ndef\n".toList) 0 ≠ some (1, 0) := by
  refine ⟨by decide, by decide, by decide⟩

/-- C3 (amended): for every file with at least one line, the resolver at
offset 0 returns line 1 and column equal to the byte length of the first
line (the cumulative count reaches 0 immediately, so the returned column is
`overall - 0 = len(line 1)`). -/
theorem claim_C3_amended (content : List Char) (l : List Char)
    (ls : List (List Char)) (h : pyLines content = l :: ls) :
    get_source_location_by_offset content 0 = some (1, l.length) := by
  unfold get_source_location_by_offset
  rw [h, resolveGo, if_pos (Nat.zero_le _)]
  simp

/-- C3 (witness): the amended theorem applied to the file `"abc\ndef\n"`,
whose first line is `"abc\n"` of length 4. -/
theorem claim_C3_witness :
    get_source_location_by_offset ("abc\ndef\n".toList) 0 =
      some (1, ("abc\n".toList).length) :=
  claim_C3_amended ("abc\ndef\n".toList) ("abc\n".toList)
    [("def\n".toList)] (by decide)

/-- C4: for every offset strictly greater than the file's total byte count,
the resolver takes the failure path (logged error and `sys.exit(1)`,
modelled `none`) instead of returning a position. -/
theorem claim_C4 (content : List Char) (offset : Nat)
    (h : content.length < offset) :
    get_source_location_by_offset content offset = none := by
  unfold get_source_location_by_offset
  apply resolveGo_none
  rw [Nat.zero_add, cumBytes_pyLines]
  exact h

/-- C4 (witness): the file `"abc\ndef\n"` has 8 bytes; offset 9 fails. -/
theorem claim_C4_witness :
    get_source_location_by_offset ("abc\ndef\n".toList) 9 = none :=
  claim_C4 ("abc\ndef\n".toList) 9 (by decide)

/-- C5: on the empty file the line loop never executes, so the resolver
fails for every offset, including offset 0. -/
theorem claim_C5 (offset : Nat) :
    get_source_location_by_offset [] offset = none := rfl

/-- C10: whenever the resolver succeeds for an offset `≥ 1`, the returned
line is between 1 and the file's line count, and the returned column is
strictly less than the byte length of that line. -/
theorem claim_C10 (content : List Char) (offset L C : Nat)
    (hoff : 1 ≤ offset)
    (h : get_source_location_by_offset content offset = some (L, C)) :
    1 ≤ L ∧ L ≤ (pyLines content).length ∧ C < lineLength content L := by
  obtain ⟨i, hi1, hile, hLi, hreach, hmin, hsum⟩ :=
    resolveGo_some_spec offset (pyLines content) 0 0 L C (Nat.zero_le _) h
  rw [Nat.zero_add] at hLi hreach hsum
  simp only [Nat.zero_add] at hmin
  subst hLi
  have hprev : cumBytes (pyLines content) (L - 1) < offset := by
    rcases Nat.lt_or_ge 1 L with hgt | hle1
    · exact hmin (L - 1) (by omega) (by omega)
    · have : L = 1 := by omega
      rw [this, Nat.sub_self, cumBytes_zero]
      omega
  have hstep : cumBytes (pyLines content) L =
      cumBytes (pyLines content) (L - 1) + lineLength content L := by
    have h1 : L - 1 < (pyLines content).length := by omega
    have := cumBytes_succ (pyLines content) (L - 1) h1
    rw [show L - 1 + 1 = L by omega] at this
    rw [this]; rfl
  exact ⟨hi1, hile, by omega⟩

/-- C10 (witness): the theorem applied to the file `"abc\ndef\n"` at
offset 5, where the resolver returns line 2, column 3. -/
theorem claim_C10_witness :
    1 ≤ (2 : Nat) ∧ (2 : Nat) ≤ (pyLines ("abc\ndef\n".toList)).length ∧
    (3 : Nat) < lineLength ("abc\ndef\n".toList) 2 :=
  claim_C10 ("abc\ndef\n".toList) 5 2 3 (by decide) (by decide)

end Pythx

namespace Pythx

/-- A parsed JSON value, as produced by `json.load`. -/
inductive Json where
  | null : Json
  | bool (b : Bool) : Json
  | num (n : Int) : Json
  | str (s : String) : Json
  | arr (elems : List Json) : Json
  | obj (fields : List (String × Json)) : Json

/-- Python truthiness of a parsed JSON value. -/
def Json.truthy : Json → Bool
  | .null => false
  | .bool b => b
  | .num n => n != 0
  | .str s => s != ""
  | .arr elems => !elems.isEmpty
  | .obj fields => !fields.isEmpty

/-- Python `needle in hay` for strings: substring containment. -/
def hasSubChars (needle : List Char) : List Char → Bool
  | [] => List.isPrefixOf needle []
  | c :: cs => List.isPrefixOf needle (c :: cs) || hasSubChars needle cs

/-- Python `k in config` on a parsed JSON value: key membership for dicts,
element comparison for lists, substring test for strings; `none` models the
`TypeError` raised for null, booleans and numbers. -/
def Json.mem? (j : Json) (k : String) : Option Bool :=
  match j with
  | .obj fields => some (fields.any (fun p => p.1 == k))
  | .arr elems => some (elems.any (fun e => match e with
      | .str s => s == k
      | _ => false))
  | .str s => some (hasSubChars k.toList s.toList)
  | _ => none

/-- Python `config[k]` on a parsed JSON dict. -/
def Json.getKey? (j : Json) (k : String) : Option Json :=
  match j with
  | .obj fields => (fields.find? (fun p => p.1 == k)).map Prod.snd
  | _ => none

/-- Python `type(config) == dict`. -/
def Json.isDict : Json → Bool
  | .obj _ => true
  | _ => false

/-- A fatal CLI outcome: `exit code msg` models the echoed (or logged)
message followed by `sys.exit(code)`; `crash msg` models an uncaught
Python exception. -/
inductive CliExit where
  | exit (code : Nat) (msg : String) : CliExit
  | crash (msg : String) : CliExit
  deriving DecidableEq

/-- `CONFIG_KEYS = ("access", "refresh", "username", "password")`. -/
def CONFIG_KEYS : List String := ["access", "refresh", "username", "password"]

/-- The generator `all(k in config for k in CONFIG_KEYS)`, short-circuiting
on the first missing key and raising `TypeError` on non-container values. -/
def keysPresentGo (config : Json) : List String → Except CliExit Bool
  | [] => .ok true
  | k :: ks =>
    match config.mem? k with
    | none => .error (.crash "TypeError: argument is not iterable")
    | some false => .ok false
    | some true => keysPresentGo config ks

/-- `keys_present = all(k in config for k in CONFIG_KEYS)`. -/
def keys_present (config : Json) : Except CliExit Bool :=
  keysPresentGo config CONFIG_KEYS

/-- The diagnostic echoed when required keys are missing. -/
def malformedKeysMsg (config_path : String) : String :=
  "Malformed config file at " ++ config_path ++
    " doesn't contain required keys ('access', 'refresh', 'username', 'password')"

/-- The diagnostic echoed when the tokens are required but falsy. -/
def malformedTokensMsg (config_path : String) : String :=
  "Malformed config file at " ++ config_path ++
    " does not contain access and refresh token"

/-- `parse_config(config_path, tokens_required)` from `pythx/cli/main.py`,
with the credential file's parsed JSON value passed in place of the
`json.load(open(config_path))` call.  `.ok` models returning the config;
`.error (.exit 1 msg)` models `click.echo(msg)` followed by `sys.exit(1)`. -/
def parse_config (config_path : String) (config : Json)
    (tokens_required : Bool) : Except CliExit Json :=
  match keys_present config with
  | .error e => .error e
  | .ok kp =>
    if !(config.isDict && kp) then
      .error (.exit 1 (malformedKeysMsg config_path))
    else if tokens_required &&
        !(((config.getKey? "access").getD .null).truthy &&
          ((config.getKey? "refresh").getD .null).truthy) then
      .error (.exit 1 (malformedTokensMsg config_path))
    else
      .ok config

theorem keysPresentGo_obj (fields : List (String × Json)) (ks : List String) :
    keysPresentGo (.obj fields) ks =
      .ok (ks.all (fun k => fields.any (fun p => p.1 == k))) := by
  induction ks with
  | nil => rfl
  | cons k ks ih =>
    rw [keysPresentGo]
    cases hany : fields.any (fun p => p.1 == k) with
    | false => simp [Json.mem?, hany]
    | true => simp [Json.mem?, hany, ih]

end Pythx

namespace Pythx

/-- C7: a JSON credential dict missing one of the required keys makes any
command reading it via `parse_config` echo the diagnostic naming the
required keys and exit with code 1; and when tokens are required, a config
whose `access` or `refresh` value is the empty string likewise echoes a
diagnostic and exits with code 1. -/
theorem claim_C7 :
    (∀ (config_path : String) (fields : List (String × Json)) (tr : Bool),
      (∃ k ∈ CONFIG_KEYS, ∀ p ∈ fields, p.1 ≠ k) →
      parse_config config_path (.obj fields) tr =
        .error (.exit 1 (malformedKeysMsg config_path))) ∧
    (∀ (config_path : String) (fields : List (String × Json)),
      (∀ k ∈ CONFIG_KEYS, ∃ p ∈ fields, p.1 = k) →
      (Json.getKey? (.obj fields) "access" = some (.str "") ∨
       Json.getKey? (.obj fields) "refresh" = some (.str "")) →
      parse_config config_path (.obj fields) true =
        .error (.exit 1 (malformedTokensMsg config_path))) := by
  constructor
  · intro config_path fields tr hmissing
    obtain ⟨k, hkmem, hknot⟩ := hmissing
    have hany : fields.any (fun p => p.1 == k) = false := by
      rw [List.any_eq_false]
      intro p hp
      simpa using hknot p hp
    have hall : CONFIG_KEYS.all (fun k => fields.any (fun p => p.1 == k)) = false := by
      by_contra hcon
      have htrue : CONFIG_KEYS.all (fun k => fields.any (fun p => p.1 == k)) = true := by
        cases h : CONFIG_KEYS.all (fun k => fields.any (fun p => p.1 == k))
        · exact absurd h hcon
        · rfl
      rw [List.all_eq_true] at htrue
      have := htrue k hkmem
      rw [hany] at this
      exact Bool.false_ne_true this
    rw [parse_config, keys_present, keysPresentGo_obj, hall]
    simp
  · intro config_path fields hkeys htok
    have hall : CONFIG_KEYS.all (fun k => fields.any (fun p => p.1 == k)) = true := by
      rw [List.all_eq_true]
      intro k hkmem
      obtain ⟨p, hp, hpk⟩ := hkeys k hkmem
      rw [List.any_eq_true]
      exact ⟨p, hp, by simpa using hpk⟩
    rw [parse_config, keys_present, keysPresentGo_obj, hall]
    rcases htok with hacc | href
    · rw [hacc]
      simp [Json.isDict, Json.truthy]
    · rw [href]
      simp [Json.isDict, Json.truthy]

/-- C7 (witness): a config missing `refresh` exits with the missing-keys
diagnostic; a complete config with an empty `access` token exits with the
token diagnostic. -/
theorem claim_C7_witness :
    parse_config "/tmp/.pythx.json"
      (.obj [("access", .str "a"), ("username", .str "u"),
        ("password", .str "p")]) true =
      .error (.exit 1 (malformedKeysMsg "/tmp/.pythx.json")) ∧
    parse_config "/tmp/.pythx.json"
      (.obj [("access", .str ""), ("refresh", .str "r"),
        ("username", .str "u"), ("password", .str "p")]) true =
      .error (.exit 1 (malformedTokensMsg "/tmp/.pythx.json")) :=
  ⟨claim_C7.1 "/tmp/.pythx.json" _ true
      ⟨"refresh", by decide, by decide⟩,
   claim_C7.2 "/tmp/.pythx.json" _ (by decide) (Or.inl rfl)⟩

end Pythx

namespace Pythx

/-- An analysis entry of the remote `analysis_list` response (the fields
displayed by `ps` and `top`). -/
structure Analysis where
  uuid : String
  status : String
  submitted_at : String
  deriving DecidableEq

/-- The unauthenticated placeholder Ethereum address. -/
def zeroAddress : String := "0x0000000000000000000000000000000000000000"

/-- The guidance message echoed to unauthenticated users. -/
def guidanceMsg : String :=
  "This functionality is only available to registered users. " ++
  "Head over to https://mythx.io/ and register a free account to " ++
  "list your past analyses. Alternatively, you can look up the " ++
  "status of a specific job by calling 'pythx status <uuid>'."

/-- Outcome of `ps_core`: `guidance code msg` models `click.echo(msg)`
followed by `sys.exit(code)` before any `analysis_list` call; `listed xs`
models a completed `analysis_list` call whose `analyses` field was
truncated to `xs`. -/
inductive PsCoreOutcome where
  | guidance (code : Nat) (msg : String) : PsCoreOutcome
  | listed (analyses : List Analysis) : PsCoreOutcome
  deriving DecidableEq

/-- `ps_core(config, staging, number)` from `pythx/cli/main.py`, with the
recovered client's `eth_address` and the remote `analysis_list` response's
`analyses` list passed explicitly (client recovery and the HTTP call are
external collaborators).  `resp.analyses[: number + 1]` is `List.take
(number + 1)`. -/
def ps_core (eth_address : String) (analyses : List Analysis)
    (number : Nat) : PsCoreOutcome :=
  if eth_address = zeroAddress then
    .guidance 0 guidanceMsg
  else
    .listed (analyses.take (number + 1))

/-- C8: with the placeholder address configured, the listing path echoes
the guidance message and exits cleanly with status 0 before the remote
`analysis_list` operation is ever reached. -/
theorem claim_C8 (analyses : List Analysis) (number : Nat) :
    ps_core zeroAddress analyses number = .guidance 0 guidanceMsg := by
  simp [ps_core]

/-- C9: with more than `N + 1` analyses in the response, `ps --number N`
keeps the first `N + 1` entries (indices 0 through N), displaying `N + 1`
rows rather than `N`. -/
theorem claim_C9 (eth_address : String) (analyses : List Analysis)
    (number : Nat) (hne : eth_address ≠ zeroAddress)
    (hlen : number + 1 < analyses.length) :
    ps_core eth_address analyses number =
      .listed (analyses.take (number + 1)) ∧
    (analyses.take (number + 1)).length = number + 1 := by
  refine ⟨by simp [ps_core, hne], ?_⟩
  rw [List.length_take]
  omega

/-- C9 (witness): four analyses, `--number 2`: the first three are kept. -/
theorem claim_C9_witness :
    ps_core "0xabc"
      [⟨"u1", "Finished", "t1"⟩, ⟨"u2", "Finished", "t2"⟩,
       ⟨"u3", "Queued", "t3"⟩, ⟨"u4", "Queued", "t4"⟩] 2 =
      .listed ([⟨"u1", "Finished", "t1"⟩, ⟨"u2", "Finished", "t2"⟩,
       ⟨"u3", "Queued", "t3"⟩, ⟨"u4", "Queued", "t4"⟩].take 3) ∧
    ([(⟨"u1", "Finished", "t1"⟩ : Analysis), ⟨"u2", "Finished", "t2"⟩,
       ⟨"u3", "Queued", "t3"⟩, ⟨"u4", "Queued", "t4"⟩].take 3).length = 3 :=
  claim_C9 "0xabc"
    [⟨"u1", "Finished", "t1"⟩, ⟨"u2", "Finished", "t2"⟩,
     ⟨"u3", "Queued", "t3"⟩, ⟨"u4", "Queued", "t4"⟩] 2
    (by decide) (by decide)

end Pythx

namespace Pythx

/-- One issue location's source map `offset:length:fileIndex`, already
split and converted by `int(...)`. -/
structure SourceMapEntry where
  offset : Nat
  length : Nat
  fileIndex : Nat
  deriving DecidableEq

/-- An issue of the report response (the fields the `report` command
reads). -/
structure Issue where
  locations : List SourceMapEntry
  swc_title : String
  severity : String
  description_short : String
  deriving DecidableEq

/-- The report response: detected issues and the ordered source-file list. -/
structure ReportResponse where
  issues : List Issue
  source_list : List String
  deriving DecidableEq

/-- One row of the rendered report table. -/
structure ReportRow where
  line : Nat
  column : Nat
  swc_title : String
  severity : String
  description_short : String
  deriving DecidableEq

/-- The loop-carried Python locals `filename`, `line`, `column` of the
`report` command's aggregation loop (`none` models a not-yet-assigned
local; reading one raises `NameError`). -/
structure ReportLoopState where
  filename : Option String
  line : Option Nat
  column : Option Nat
  deriving DecidableEq

/-- One iteration of `for offset, length, file_idx in source_locs`: with a
non-empty `source_list` the file is selected by index (`IndexError` if out
of range) and the offset resolved (resolver failure aborts the process);
with an empty `source_list` only `filename` is (re)assigned, to
`"Unknown"`. -/
def processLocation (fs : String → List Char) (source_list : List String)
    (st : ReportLoopState) (loc : SourceMapEntry) :
    Except CliExit ReportLoopState :=
  if !source_list.isEmpty then
    match source_list.get? loc.fileIndex with
    | none => .error (.crash "IndexError: list index out of range")
    | some filename =>
      match get_source_location_by_offset (fs filename) loc.offset with
      | none =>
        .error (.exit 1 ("Error finding the source location in " ++
          filename ++ " for offset " ++ toString loc.offset))
      | some (line, column) =>
        .ok ⟨some filename, some line, some column⟩
  else
    .ok { st with filename := some "Unknown" }

/-- The inner `for` loop over an issue's locations. -/
def processLocations (fs : String → List Char) (source_list : List String) :
    ReportLoopState → List SourceMapEntry → Except CliExit ReportLoopState
  | st, [] => .ok st
  | st, loc :: rest =>
    match processLocation fs source_list st loc with
    | .error e => .error e
    | .ok st' => processLocations fs source_list st' rest

/-- One iteration of `for issue in resp.issues`: scan the issue's
locations, then append one `(line, column, swc_title, severity,
description_short)` tuple under `file_to_issue[filename]` — the append sits
outside the location loop.  Reading any of the three locals before its
first assignment raises `NameError`. -/
def processIssue (fs : String → List Char) (source_list : List String)
    (st : ReportLoopState) (issue : Issue) :
    Except CliExit (ReportLoopState × (String × ReportRow)) :=
  match processLocations fs source_list st issue.locations with
  | .error e => .error e
  | .ok st' =>
    match st'.filename, st'.line, st'.column with
    | some f, some l, some c =>
      .ok (st', (f, ⟨l, c, issue.swc_title, issue.severity,
        issue.description_short⟩))
    | _, _, _ => .error (.crash "NameError: local variable referenced before assignment")

/-- The outer loop over `resp.issues`, accumulating the appends in order. -/
def reportRowsGo (fs : String → List Char) (source_list : List String) :
    ReportLoopState → List Issue → List (String × ReportRow) →
    Except CliExit (List (String × ReportRow))
  | _, [], acc => .ok acc
  | st, issue :: rest, acc =>
    match processIssue fs source_list st issue with
    | .error e => .error e
    | .ok (st', row) => reportRowsGo fs source_list st' rest (acc ++ [row])

/-- The `report` command's aggregation: the sequence of `(filename, tuple)`
pairs appended to `file_to_issue`, in append order (the per-file grouping
and table rendering are a presentation step over this sequence). -/
def reportRows (fs : String → List Char) (resp : ReportResponse) :
    Except CliExit (List (String × ReportRow)) :=
  reportRowsGo fs resp.source_list ⟨none, none, none⟩ resp.issues []

/-- Example filesystem: a single source file `"a.sol"` containing
`"abc\ndef\n"`. -/
def exFs : String → List Char := fun _ => "abc\ndef\n".toList

/-- Example issue with two locations (offsets 4 and 5 in file 0). -/
def exIssue : Issue :=
  ⟨[⟨4, 1, 0⟩, ⟨5, 1, 0⟩], "SWC-101", "High", "short"⟩

/-- Example report response: one issue with two locations. -/
def exResp : ReportResponse := ⟨[exIssue], ["a.sol"]⟩

end Pythx

namespace Pythx

/-- C6 (counterexample): the claim predicts one appended tuple per
location (2 for `exIssue`), but the append sits outside the location loop,
so the single issue with two locations contributes exactly one tuple —
built from its last location (offset 5 resolves to line 2, column 3). -/
theorem claim_C6_counterexample :
    reportRows exFs exResp =
      .ok [("a.sol", ⟨2, 3, "SWC-101", "High", "short"⟩)] ∧
    (exResp.issues.map (fun i => i.locations.length)).sum = 2 ∧
    [("a.sol", (⟨2, 3, "SWC-101", "High", "short"⟩ : ReportRow))].length ≠ 2 :=
  ⟨rfl, rfl, by decide⟩

/-- C6 (amended): for every issue, each of its locations' source-map
triples is parsed and resolved in turn, but the tuple is appended once per
issue — under the file path and position resolved from the issue's last
location — so a successful aggregation appends exactly one tuple per
issue, not one per location. -/
theorem claim_C6_amended (fs : String → List Char) (resp : ReportResponse)
    (rows : List (String × ReportRow))
    (h : reportRows fs resp = .ok rows) :
    rows.length = resp.issues.length := by
  have hgo : ∀ (issues : List Issue) (st : ReportLoopState)
      (acc rows : List (String × ReportRow)),
      reportRowsGo fs resp.source_list st issues acc = .ok rows →
      rows.length = acc.length + issues.length := by
    intro issues
    induction issues with
    | nil =>
      intro st acc rows h
      rw [reportRowsGo] at h
      have : acc = rows := Except.ok.inj h
      subst this
      simp
    | cons issue rest ih =>
      intro st acc rows h
      rw [reportRowsGo] at h
      cases hpi : processIssue fs resp.source_list st issue with
      | error e => rw [hpi] at h; exact absurd h (by simp)
      | ok pr =>
        rw [hpi] at h
        have := ih pr.1 (acc ++ [pr.2]) rows h
        simp only [List.length_append, List.length_cons, List.length_nil] at this
        rw [List.length_cons]
        omega
  have := hgo resp.issues ⟨none, none, none⟩ [] rows h
  simpa using this

/-- C6 (witness): the amended theorem on the single-issue example: one row
for one issue. -/
theorem claim_C6_witness :
    [("a.sol", (⟨2, 3, "SWC-101", "High", "short"⟩ : ReportRow))].length =
      exResp.issues.length :=
  claim_C6_amended exFs exResp
    [("a.sol", ⟨2, 3, "SWC-101", "High", "short"⟩)] rfl

end Pythx

namespace Pythx

/-- C5 (witness): the empty file fails at a concrete offset. -/
theorem claim_C5_witness : get_source_location_by_offset [] 7 = none :=
  claim_C5 7

/-- C8 (witness): the guidance exit on a concrete analysis list. -/
theorem claim_C8_witness :
    ps_core zeroAddress [⟨"u1", "Finished", "t1"⟩] 20 =
      .guidance 0 guidanceMsg :=
  claim_C8 [⟨"u1", "Finished", "t1"⟩] 20

end Pythx
